import Mathlib

/-!
# A shallow embedding of the robloxgo client library

This file embeds the request/response pipeline of the `robloxgo` Go
package: the HTTP transport helpers (`get`, `post`, `patch`, `delete`,
`newHttpRequest`, `httpErrorCheck`, `getFullHttpError`), the JSON
decoding of the domain records (`User`, `Group`, `GroupRole`, ...)
following the semantics of Go's `encoding/json`, and the high level
operations of `user.go` and `group.go` (`GetUserByID`,
`GetUserByUsername`, `GetGroupByID`, `GetGroupByGroupname`,
`GetMembers`, `GetRoles`, `GetRole`, `GetUserRole`, the join-request,
role-update and removal operations, and `GetGroupIcon`).

The network is modelled as a pure `World` function from requests to
`(status, body)` pairs; every operation additionally returns the list
of HTTP requests it issued, so that statements about "no network call"
or "no second fetch" are about an explicit request trace.  A Go runtime
panic (nil-pointer dereference, out-of-bounds index) is modelled by the
`Outcome.crash` constructor.  The `Client` back-reference held by the
Go structs is a non-owning handle used only to reach the transport; it
carries no data relevant to the properties below and is not modelled.
-/

namespace Robloxgo

/-! ## Character-list utilities

Strings are reasoned about through their underlying character lists so
that every proof obligation reduces inside the kernel. -/

/-- Boolean test that `pat` is a leading segment of `s`. -/
def listHasPfx : List Char → List Char → Bool
  | [], _ => true
  | _ :: _, [] => false
  | a :: as, b :: bs => a == b && listHasPfx as bs

/-- Boolean test that `pat` occurs contiguously somewhere inside `s`. -/
def listHasSub (pat : List Char) : List Char → Bool
  | [] => pat.isEmpty
  | c :: rest => listHasPfx pat (c :: rest) || listHasSub pat rest

/-- Boolean test that string `pat` occurs contiguously inside string `s`. -/
def strHasSub (pat s : String) : Bool := listHasSub pat.data s.data

/-- Embeds Go's `strings.TrimPrefix(s, pfx)`: drop one leading copy of
`pfx` from `s` when present, otherwise return `s` unchanged. -/
def trimPfx (pfx s : String) : String :=
  if listHasPfx pfx.data s.data then { data := s.data.drop pfx.data.length } else s

/-! ## The wire JSON model

A JSON value as seen by `encoding/json`.  A number is kept as its
literal text, exactly as Go's `json.Number` does. -/

/-- A JSON document.  `num` carries the numeric literal as written on
the wire (the representation `json.Number` stores). -/
inductive Json where
  | null : Json
  | bool (b : Bool) : Json
  | num (lit : String) : Json
  | str (s : String) : Json
  | arr (elems : List Json) : Json
  | obj (fields : List (String × Json)) : Json

/-- Embeds `isValidNumber` of Go's `encoding/json`: the JSON number
grammar check applied when a quoted literal is decoded into a
`json.Number`. -/
def goIsValidNumber (s : String) : Bool :=
  let isDigit : Char → Bool := fun c => '0' ≤ c && c ≤ '9'
  let rec skipDigits : List Char → List Char
    | [] => []
    | c :: rest => if isDigit c then skipDigits rest else c :: rest
  let l0 := s.data
  let l1 := match l0 with
    | '-' :: rest => rest
    | l => l
  match l0, l1 with
  | [], _ => false
  | _ :: _, [] => false
  | _ :: _, c :: rest =>
    let intPart : Option (List Char) :=
      if c == '0' then some rest
      else if isDigit c then some (skipDigits rest)
      else none
    match intPart with
    | none => false
    | some l2 =>
      let l3 := match l2 with
        | '.' :: d :: rest2 => if isDigit d then skipDigits rest2 else l2
        | _ => l2
      let l4 : Option (List Char) := match l3 with
        | e :: c2 :: rest3 =>
          if e == 'e' || e == 'E' then
            if c2 == '+' || c2 == '-' then
              match rest3 with
              | [] => none
              | _ :: _ => some (skipDigits rest3)
            else some (skipDigits (c2 :: rest3))
          else some l3
        | _ => some l3
      match l4 with
      | none => false
      | some l5 => l5.isEmpty

/-! ## Decoding primitives

These mirror `encoding/json`'s `literalStore` for the target kinds the
repository uses.  Decoding `null` into a field leaves the previous
value in place; a missing key never touches the field at all; only a
kind mismatch is an error. -/

/-- A structural JSON decode error (Go: an `UnmarshalTypeError`). -/
inductive DErr where
  | wrongType (msg : String) : DErr
deriving DecidableEq

/-- Decode a JSON value into a `json.Number` field whose previous value
is `old`.  Both numeric literals and quoted valid numeric literals are
accepted, as in `encoding/json`. -/
def decodeNumberInto (old : String) : Json → Except DErr String
  | .null => .ok old
  | .num lit => .ok lit
  | .str s =>
    if goIsValidNumber s then .ok s
    else .error (.wrongType "invalid number literal into json.Number")
  | .bool _ => .error (.wrongType "cannot unmarshal bool into json.Number")
  | .arr _ => .error (.wrongType "cannot unmarshal array into json.Number")
  | .obj _ => .error (.wrongType "cannot unmarshal object into json.Number")

/-- Decode a JSON value into a `string` field whose previous value is `old`. -/
def decodeStringInto (old : String) : Json → Except DErr String
  | .null => .ok old
  | .str s => .ok s
  | _ => .error (.wrongType "cannot unmarshal value into string")

/-- Decode a JSON value into a `bool` field whose previous value is `old`. -/
def decodeBoolInto (old : Bool) : Json → Except DErr Bool
  | .null => .ok old
  | .bool b => .ok b
  | _ => .error (.wrongType "cannot unmarshal value into bool")

/-- Fold a struct decoder over the fields of a JSON object, applying
`step` for each key/value pair in wire order (so a repeated key is
overwritten by its later occurrence, as in `encoding/json`). -/
def decodeFields (step : α → String × Json → Except DErr α) : α → List (String × Json) → Except DErr α
  | acc, [] => .ok acc
  | acc, f :: rest =>
    match step acc f with
    | .error e => .error e
    | .ok acc2 => decodeFields step acc2 rest

/-- Decode every element of a JSON array with `dec`, failing on the
first element error (Go's slice decoding). -/
def decodeElems (dec : Json → Except DErr α) : List Json → Except DErr (List α)
  | [] => .ok []
  | x :: xs =>
    match dec x with
    | .error e => .error e
    | .ok a =>
      match decodeElems dec xs with
      | .error e => .error e
      | .ok as => .ok (a :: as)

/-- Decode a JSON value into a slice field with previous value `old`:
`null` keeps the old slice, an array decodes element-wise, anything
else is a kind mismatch. -/
def decodeArrayInto (old : List α) (dec : Json → Except DErr α) : Json → Except DErr (List α)
  | .null => .ok old
  | .arr xs => decodeElems dec xs
  | _ => .error (.wrongType "cannot unmarshal value into slice")

/-! ## Domain records (from `user.go` and `group.go`) -/

/-- Embeds the `User` struct of `user.go` (the `Client` back-reference
is not modelled).  `id` holds the `json.Number` literal. -/
structure User where
  id : String
  username : String
  displayname : String
  premium : Bool
  locale : String
  createdAt : String
deriving DecidableEq

/-- The zero `User`, as allocated by `newUser` before decoding. -/
def zeroUser : User := ⟨"", "", "", false, "", ""⟩

/-- Embeds the `Group` struct of `group.go` (the `Client`
back-reference is not modelled). -/
structure Group where
  id : String
  groupname : String
  description : String
  ownerID : String
  memberCount : String
  publicEntry : Bool
  locked : Bool
  createdAt : String
deriving DecidableEq

/-- The zero `Group`, as allocated by `newGroup` before decoding. -/
def zeroGroup : Group := ⟨"", "", "", "", "", false, false, ""⟩

/-- Embeds the `GroupRole` struct of `group.go`. -/
structure GroupRole where
  id : String
  name : String
  rank : String
deriving DecidableEq

/-- The zero `GroupRole`. -/
def zeroGroupRole : GroupRole := ⟨"", "", ""⟩

/-- Embeds the `GroupMember` struct of `group.go`. -/
structure GroupMember where
  id : String
  username : String
  groupRole : GroupRole
deriving DecidableEq

/-! ## Shape decoders

One decoder per Go target shape, each a field-fold with the
`encoding/json` semantics above.  Keys are matched by their exact json
tag (the repository's wire payloads use the tagged spelling). -/

/-- Field step for the `User` shape: tags `id`, `name`, `displayName`,
`premium`, `locale`, `createTime`; unknown keys are ignored. -/
def setUserField (u : User) : String × Json → Except DErr User
  | ("id", v) => (decodeNumberInto u.id v).map fun x => { u with id := x }
  | ("name", v) => (decodeStringInto u.username v).map fun x => { u with username := x }
  | ("displayName", v) => (decodeStringInto u.displayname v).map fun x => { u with displayname := x }
  | ("premium", v) => (decodeBoolInto u.premium v).map fun x => { u with premium := x }
  | ("locale", v) => (decodeStringInto u.locale v).map fun x => { u with locale := x }
  | ("createTime", v) => (decodeStringInto u.createdAt v).map fun x => { u with createdAt := x }
  | (_, _) => .ok u

/-- Decode a JSON value into a `User` starting from `u` (the value the
target pointer held before `Decode` ran). -/
def decodeUserFrom (u : User) : Json → Except DErr User
  | .obj fs => decodeFields setUserField u fs
  | .null => .ok u
  | _ => .error (.wrongType "cannot unmarshal value into User")

/-- Decode a JSON value into a fresh `User` (Go: `newUser` then `Decode`). -/
def decodeUser (j : Json) : Except DErr User := decodeUserFrom zeroUser j

/-- Field step for the `Group` shape: tags `id`, `displayName`,
`description`, `owner`, `memberCount`, `publicEntryAllowed`, `locked`,
`createTime`. -/
def setGroupField (g : Group) : String × Json → Except DErr Group
  | ("id", v) => (decodeNumberInto g.id v).map fun x => { g with id := x }
  | ("displayName", v) => (decodeStringInto g.groupname v).map fun x => { g with groupname := x }
  | ("description", v) => (decodeStringInto g.description v).map fun x => { g with description := x }
  | ("owner", v) => (decodeStringInto g.ownerID v).map fun x => { g with ownerID := x }
  | ("memberCount", v) => (decodeNumberInto g.memberCount v).map fun x => { g with memberCount := x }
  | ("publicEntryAllowed", v) => (decodeBoolInto g.publicEntry v).map fun x => { g with publicEntry := x }
  | ("locked", v) => (decodeBoolInto g.locked v).map fun x => { g with locked := x }
  | ("createTime", v) => (decodeStringInto g.createdAt v).map fun x => { g with createdAt := x }
  | (_, _) => .ok g

/-- Decode a JSON value into a `Group` starting from `g`. -/
def decodeGroupFrom (g : Group) : Json → Except DErr Group
  | .obj fs => decodeFields setGroupField g fs
  | .null => .ok g
  | _ => .error (.wrongType "cannot unmarshal value into Group")

/-- Decode a JSON value into a fresh `Group` (Go: `newGroup` then `Decode`). -/
def decodeGroup (j : Json) : Except DErr Group := decodeGroupFrom zeroGroup j

/-- Field step for the `GroupRole` shape: tags `id`, `displayName`, `rank`. -/
def setGroupRoleField (r : GroupRole) : String × Json → Except DErr GroupRole
  | ("id", v) => (decodeNumberInto r.id v).map fun x => { r with id := x }
  | ("displayName", v) => (decodeStringInto r.name v).map fun x => { r with name := x }
  | ("rank", v) => (decodeNumberInto r.rank v).map fun x => { r with rank := x }
  | (_, _) => .ok r

/-- Decode a JSON value into a `GroupRole`. -/
def decodeGroupRole (j : Json) : Except DErr GroupRole :=
  match j with
  | .obj fs => decodeFields setGroupRoleField zeroGroupRole fs
  | .null => .ok zeroGroupRole
  | _ => .error (.wrongType "cannot unmarshal value into GroupRole")

/-- Decode a JSON value into a `*GroupRole` that is nil before the
call (`GetRole` decodes into `&role` with `var role *GroupRole`): a
JSON `null` leaves the pointer nil, an object allocates and fills. -/
def decodeGroupRolePtr (j : Json) : Except DErr (Option GroupRole) :=
  match j with
  | .null => .ok none
  | .obj fs => (decodeFields setGroupRoleField zeroGroupRole fs).map some
  | _ => .error (.wrongType "cannot unmarshal value into GroupRole")

/-! ## Anonymous response shapes -/

/-- A candidate of the legacy group search response (`GetGroupByGroupname`):
`{id json.Number; name string}`. -/
structure LegacyGroup where
  id : String
  name : String
deriving DecidableEq

/-- Field step for a legacy group candidate. -/
def setLegacyGroupField (c : LegacyGroup) : String × Json → Except DErr LegacyGroup
  | ("id", v) => (decodeNumberInto c.id v).map fun x => { c with id := x }
  | ("name", v) => (decodeStringInto c.name v).map fun x => { c with name := x }
  | (_, _) => .ok c

/-- Decode one legacy group candidate. -/
def decodeLegacyGroup (j : Json) : Except DErr LegacyGroup :=
  match j with
  | .obj fs => decodeFields setLegacyGroupField ⟨"", ""⟩ fs
  | .null => .ok ⟨"", ""⟩
  | _ => .error (.wrongType "cannot unmarshal value into legacy group candidate")

/-- The legacy group search response `{data: [...]}` of `GetGroupByGroupname`. -/
structure LegacyGroupSearch where
  data : List LegacyGroup
deriving DecidableEq

/-- Decode the legacy group search response. -/
def decodeLegacyGroupSearch (j : Json) : Except DErr LegacyGroupSearch :=
  match j with
  | .obj fs =>
    decodeFields
      (fun (acc : LegacyGroupSearch) f =>
        match f with
        | ("data", v) => (decodeArrayInto acc.data decodeLegacyGroup v).map fun x => ⟨x⟩
        | (_, _) => .ok acc)
      ⟨[]⟩ fs
  | .null => .ok ⟨[]⟩
  | _ => .error (.wrongType "cannot unmarshal value into legacy group search response")

/-- The legacy usernames response `{data: [User]}` of `GetUserByUsername`. -/
structure UsersSearch where
  data : List User
deriving DecidableEq

/-- Decode the legacy usernames response. -/
def decodeUsersSearch (j : Json) : Except DErr UsersSearch :=
  match j with
  | .obj fs =>
    decodeFields
      (fun (acc : UsersSearch) f =>
        match f with
        | ("data", v) => (decodeArrayInto acc.data decodeUser v).map fun x => ⟨x⟩
        | (_, _) => .ok acc)
      ⟨[]⟩ fs
  | .null => .ok ⟨[]⟩
  | _ => .error (.wrongType "cannot unmarshal value into usernames response")

/-- One page of the membership listing used by `GetMembers`:
`{nextPageToken string; groupMemberships: [{user string}]}`, with the
inner struct flattened to its single `user` field. -/
structure MemberPage where
  nextPage : String
  users : List String
deriving DecidableEq

/-- Decode one raw membership item `{user string}` to its `user` field. -/
def decodeMembershipItem (j : Json) : Except DErr String :=
  match j with
  | .obj fs =>
    decodeFields
      (fun (acc : String) f =>
        match f with
        | ("user", v) => decodeStringInto acc v
        | (_, _) => .ok acc)
      "" fs
  | .null => .ok ""
  | _ => .error (.wrongType "cannot unmarshal value into membership item")

/-- Decode one membership page. -/
def decodeMemberPage (j : Json) : Except DErr MemberPage :=
  match j with
  | .obj fs =>
    decodeFields
      (fun (acc : MemberPage) f =>
        match f with
        | ("nextPageToken", v) => (decodeStringInto acc.nextPage v).map fun x => { acc with nextPage := x }
        | ("groupMemberships", v) => (decodeArrayInto acc.users decodeMembershipItem v).map fun x => { acc with users := x }
        | (_, _) => .ok acc)
      ⟨"", []⟩ fs
  | .null => .ok ⟨"", []⟩
  | _ => .error (.wrongType "cannot unmarshal value into membership page")

/-- One page of the role listing used by `GetRoles`:
`{nextPageToken string; groupRoles: [GroupRole]}`. -/
structure RolesPage where
  nextPage : String
  roles : List GroupRole
deriving DecidableEq

/-- Decode one roles page. -/
def decodeRolesPage (j : Json) : Except DErr RolesPage :=
  match j with
  | .obj fs =>
    decodeFields
      (fun (acc : RolesPage) f =>
        match f with
        | ("nextPageToken", v) => (decodeStringInto acc.nextPage v).map fun x => { acc with nextPage := x }
        | ("groupRoles", v) => (decodeArrayInto acc.roles decodeGroupRole v).map fun x => { acc with roles := x }
        | (_, _) => .ok acc)
      ⟨"", []⟩ fs
  | .null => .ok ⟨"", []⟩
  | _ => .error (.wrongType "cannot unmarshal value into roles page")

/-- One entry of the legacy `groups/roles` response used by
`GetUserRole`: `{group: {id json.Number}; role: GroupRole}`. -/
structure UserRoleEntry where
  groupID : String
  role : GroupRole
deriving DecidableEq

/-- Decode the inner `{id json.Number}` group reference. -/
def decodeGroupRef (j : Json) : Except DErr String :=
  match j with
  | .obj fs =>
    decodeFields
      (fun (acc : String) f =>
        match f with
        | ("id", v) => decodeNumberInto acc v
        | (_, _) => .ok acc)
      "" fs
  | .null => .ok ""
  | _ => .error (.wrongType "cannot unmarshal value into group reference")

/-- Decode one entry of the legacy `groups/roles` response. -/
def decodeUserRoleEntry (j : Json) : Except DErr UserRoleEntry :=
  match j with
  | .obj fs =>
    decodeFields
      (fun (acc : UserRoleEntry) f =>
        match f with
        | ("group", v) => (decodeGroupRef v).map fun x => { acc with groupID := x }
        | ("role", v) =>
          match v with
          | .null => .ok acc
          | .obj gs => (decodeFields setGroupRoleField acc.role gs).map fun x => { acc with role := x }
          | _ => .error (.wrongType "cannot unmarshal value into GroupRole")
        | (_, _) => .ok acc)
      ⟨"", zeroGroupRole⟩ fs
  | .null => .ok ⟨"", zeroGroupRole⟩
  | _ => .error (.wrongType "cannot unmarshal value into user role entry")

/-- The legacy `groups/roles` response `{data: [...]}` of `GetUserRole`. -/
structure UserRoleData where
  data : List UserRoleEntry
deriving DecidableEq

/-- Decode the legacy `groups/roles` response. -/
def decodeUserRoleData (j : Json) : Except DErr UserRoleData :=
  match j with
  | .obj fs =>
    decodeFields
      (fun (acc : UserRoleData) f =>
        match f with
        | ("data", v) => (decodeArrayInto acc.data decodeUserRoleEntry v).map fun x => ⟨x⟩
        | (_, _) => .ok acc)
      ⟨[]⟩ fs
  | .null => .ok ⟨[]⟩
  | _ => .error (.wrongType "cannot unmarshal value into user role data")

/-- The thumbnail response `{data: [{imageUrl string}]}` of `GetGroupIcon`,
with the inner struct flattened to its `imageUrl` field. -/
structure ThumbData where
  data : List String
deriving DecidableEq

/-- Decode one thumbnail item `{imageUrl string}`. -/
def decodeThumbItem (j : Json) : Except DErr String :=
  match j with
  | .obj fs =>
    decodeFields
      (fun (acc : String) f =>
        match f with
        | ("imageUrl", v) => decodeStringInto acc v
        | (_, _) => .ok acc)
      "" fs
  | .null => .ok ""
  | _ => .error (.wrongType "cannot unmarshal value into thumbnail item")

/-- Decode the thumbnail response. -/
def decodeThumbData (j : Json) : Except DErr ThumbData :=
  match j with
  | .obj fs =>
    decodeFields
      (fun (acc : ThumbData) f =>
        match f with
        | ("data", v) => (decodeArrayInto acc.data decodeThumbItem v).map fun x => ⟨x⟩
        | (_, _) => .ok acc)
      ⟨[]⟩ fs
  | .null => .ok ⟨[]⟩
  | _ => .error (.wrongType "cannot unmarshal value into thumbnail response")

/-! ## Endpoints (from `endpoints.go`) -/

/-- Open Cloud API version (`CloudAPIVersion`). -/
def CloudAPIVersion : String := "2"

/-- Cloud API base (`EndpointCloud`). -/
def EndpointCloud : String := "https://apis.roblox.com/cloud/v"

/-- Versioned cloud API base (`EndpointCloudAPI`). -/
def EndpointCloudAPI : String := EndpointCloud ++ CloudAPIVersion ++ "/"

/-- Cloud users resource root (`EndPointCloudUsers`). -/
def EndPointCloudUsers : String := EndpointCloudAPI ++ "users/"

/-- Cloud groups resource root (`EndpointCloudGroups`). -/
def EndpointCloudGroups : String := EndpointCloudAPI ++ "groups/"

/-- Legacy users host (`EndpointLegacyUsers`). -/
def EndpointLegacyUsers : String := "https://users.roblox.com"

/-- Legacy usernames lookup endpoint (`EndpointLegacyGetUsers`). -/
def EndpointLegacyGetUsers : String := EndpointLegacyUsers ++ "/v1/usernames/users"

/-- Legacy groups host (`EndpointLegacyGroups`). -/
def EndpointLegacyGroups : String := "https://groups.roblox.com"

/-- Legacy group search endpoint (`EndpointLegacyGetGroups`). -/
def EndpointLegacyGetGroups : String := EndpointLegacyGroups ++ "/v1/groups/search/lookup"

/-- Legacy group icon endpoint, as documented on `GetGroupIcon`
(`https://thumbnails.roblox.com/v1/groups/icons`). -/
def EndpointLegacyGetGroupIcon : String := "https://thumbnails.roblox.com/v1/groups/icons"

/-! ## The error classifier (from `responseCodes.go` and the transport) -/

/-- Embeds the `httpResponse` struct of `responseCodes.go`. -/
structure HttpResponseKind where
  code : Nat
  errText : String
deriving DecidableEq

/-- Embeds the `httpResponses` map of `responseCodes.go`.  A Go map
lookup with a missing key yields the zero value, modelled by `Option`
plus `getD` at the use site. -/
def httpResponses (code : Nat) : Option HttpResponseKind :=
  if code = 200 then some ⟨200, "response ok"⟩
  else if code = 400 then some ⟨400, "invalid argument passed"⟩
  else if code = 403 then some ⟨403, "missing permission scopes"⟩
  else if code = 404 then some ⟨404, "resource not found"⟩
  else if code = 409 then some ⟨409, "operation aborted"⟩
  else if code = 429 then some ⟨429, "too many requests"⟩
  else if code = 499 then some ⟨499, "system terminated request"⟩
  else if code = 500 then some ⟨500, "the service replied with internal server error"⟩
  else if code = 503 then some ⟨503, "the service is currently unavailable"⟩
  else none

/-- Embeds `getFullHttpError` of `responseCodes.go`: the message of the
error built for a status code.  A code outside the table reads the
map's zero value `{0, ""}`, exactly as the Go map indexing does. -/
def getFullHttpError (errorCode : Nat) : String :=
  let hr := (httpResponses errorCode).getD ⟨0, ""⟩
  "http error " ++ Nat.repr hr.code ++ ": " ++ hr.errText

/-- Embeds `httpErrorCheck` of the `newHttpRequest`-generation
transport: `none` for a 200 response, otherwise the message built from
the status line (`resp.Status`, i.e. the numeric code followed by the
status text) and the preserved raw body. -/
def httpErrorCheckMsg (status : Nat) (statusText : String) (body : String) : Option String :=
  if status = 200 then none
  else some ("http error " ++ (Nat.repr status ++ " " ++ statusText) ++ ": " ++ body)

/-! ## The transport request model -/

/-- An outbound HTTP request as the transport builds it.  `query` is
the merged query-parameter list, `headers` the header list after all
`Header.Set` calls, and `body` the JSON payload when one is encoded. -/
structure HttpReq where
  method : String
  url : String
  query : List (String × String)
  headers : List (String × String)
  body : Option Json

/-- Embeds `http.Header.Set` / `url.Values.Set`: replace the value of
an existing key, or append the pair. -/
def headerSet (hs : List (String × String)) (k v : String) : List (String × String) :=
  if hs.any (fun p => p.1 == k) then hs.map (fun p => if p.1 == k then (k, v) else p)
  else hs ++ [(k, v)]

/-- Fold a caller-supplied header list through `headerSet`. -/
def setAll (hs : List (String × String)) : List (String × String) → List (String × String)
  | [] => hs
  | (k, v) :: rest => setAll (headerSet hs k v) rest

/-- Boolean test that a request carries the given header pair. -/
def hasHeader (r : HttpReq) (k v : String) : Bool :=
  r.headers.any (fun p => p.1 == k && p.2 == v)

/-- The fixed User-Agent value attached by `newHttpRequest`
(`robloxGoUserAgent`; its exact text is irrelevant to every claim). -/
def robloxGoUserAgent : String := "RobloxGo (https://github.com/RhykerWells/robloxgo, v1.0.0-alpha.1)"

/-- Embeds `newHttpRequest` of the current transport: merge query
parameters, encode the body when non-nil, set `Content-Type:
application/json` only when the method is not GET and a body is
present, apply caller headers, then set the User-Agent. -/
def newHttpRequest (method methodURL : String) (body : Option Json)
    (headers : List (String × String)) (parameters : List (String × String)) : HttpReq :=
  let query := setAll [] parameters
  let hs0 : List (String × String) :=
    if method != "GET" && body.isSome then headerSet [] "Content-Type" "application/json"
    else []
  let hs1 := setAll hs0 headers
  let hs2 := headerSet hs1 "User-Agent" robloxGoUserAgent
  ⟨method, methodURL, query, hs2, body⟩

/-- Embeds the request construction of the older `get` method
(`apiMethods.go`, the generation classifying by `getFullHttpError`):
a GET with no body whose headers are the caller's headers followed by
an unconditional `Content-Type: application/json`. -/
def oldGetRequest (methodURL : String) (headers : List (String × String))
    (queryParams : List (String × String)) : HttpReq :=
  ⟨"GET", methodURL, setAll [] queryParams,
    headerSet (setAll [] headers) "Content-Type" "application/json", none⟩

/-- Embeds the request construction of the older `delete` method:
a DELETE with no body and an unconditional `Content-Type` header. -/
def oldDeleteRequest (methodURL : String) (headers : List (String × String)) : HttpReq :=
  ⟨"DELETE", methodURL, [], headerSet (setAll [] headers) "Content-Type" "application/json", none⟩

/-! ## The world and the transport methods

A `World` answers every request with a status code and a JSON body;
an operation's value is paired with the trace of requests it issued. -/

/-- The network, as a pure function from a request to `(status, body)`. -/
def World : Type := HttpReq → Nat × Json

/-- A typed failure surfaced by an operation (from `errors.go`, plus
the transport and decode failures). -/
inductive RGError where
  | noAPIKey : RGError
  | noUserID : RGError
  | noUsername : RGError
  | invalidUsername : RGError
  | userHasNoRole : RGError
  | noGroupID : RGError
  | noGroupname : RGError
  | invalidGroupname : RGError
  | noRoleID : RGError
  | http (msg : String) : RGError
  | decode (e : DErr) : RGError
deriving DecidableEq

/-- The result of an operation that may end in a Go runtime panic:
`ok` a value, `err` a returned error, or `crash` for an unrecovered
panic (nil dereference, out-of-bounds index). -/
inductive Outcome (α : Type) where
  | ok (a : α) : Outcome α
  | err (e : RGError) : Outcome α
  | crash : Outcome α
deriving DecidableEq

/-- Embeds `Client.get`: build a GET request (headers are nil at every
call site of the repository), issue it, and classify a non-200 status
through `getFullHttpError`. -/
def clientGet (w : World) (methodURL : String) (queryParams : List (String × String)) :
    Except RGError Json × List HttpReq :=
  let req := newHttpRequest "GET" methodURL none [] queryParams
  let (status, body) := w req
  if status ≠ 200 then (.error (.http (getFullHttpError status)), [req])
  else (.ok body, [req])

/-- Embeds `Client.post`: build a POST request carrying a JSON body,
issue it, and classify a non-200 status. -/
def clientPost (w : World) (methodURL : String) (body : Json)
    (queryParams : List (String × String)) : Except RGError Json × List HttpReq :=
  let req := newHttpRequest "POST" methodURL (some body) [] queryParams
  let (status, respBody) := w req
  if status ≠ 200 then (.error (.http (getFullHttpError status)), [req])
  else (.ok respBody, [req])

/-- Embeds `Client.patch`: build a PATCH request carrying a JSON body;
the Go method returns only `(bool, error)`. -/
def clientPatch (w : World) (methodURL : String) (body : Json) :
    Except RGError Unit × List HttpReq :=
  let req := newHttpRequest "PATCH" methodURL (some body) [] []
  let (status, _) := w req
  if status ≠ 200 then (.error (.http (getFullHttpError status)), [req])
  else (.ok (), [req])

/-- Embeds `Client.delete`: build a DELETE request with no body; the Go
method returns only `(bool, error)`. -/
def clientDelete (w : World) (methodURL : String) :
    Except RGError Unit × List HttpReq :=
  let req := newHttpRequest "DELETE" methodURL none [] []
  let (status, _) := w req
  if status ≠ 200 then (.error (.http (getFullHttpError status)), [req])
  else (.ok (), [req])

/-! ## User operations (from `user.go`) -/

/-- Embeds `Client.GetUserByID`: reject an empty ID, fetch the
canonical user record, decode it. -/
def getUserByID (w : World) (userID : String) : Except RGError User × List HttpReq :=
  if userID = "" then (.error .noUserID, [])
  else
    match clientGet w (EndPointCloudUsers ++ userID) [] with
    | (.error e, log) => (.error e, log)
    | (.ok body, log) =>
      match decodeUser body with
      | .error e => (.error (.decode e), log)
      | .ok user => (.ok user, log)

/-- The JSON body `{"excludeBannedUsers": true, "usernames": [username]}`
posted by `GetUserByUsername` (keys in the order `encoding/json` emits
a Go map: sorted). -/
def usersSearchBody (username : String) : Json :=
  .obj [("excludeBannedUsers", .bool true), ("usernames", .arr [.str username])]

/-- Embeds `Client.GetUserByUsername`: reject an empty username, post
the legacy usernames lookup, require a non-empty candidate list (the
first candidate's name is never compared), then fetch and decode the
canonical record for the first candidate's ID. -/
def getUserByUsername (w : World) (username : String) : Except RGError User × List HttpReq :=
  if username = "" then (.error .noUsername, [])
  else
    match clientPost w EndpointLegacyGetUsers (usersSearchBody username) [] with
    | (.error e, log) => (.error e, log)
    | (.ok respBody, log) =>
      match decodeUsersSearch respBody with
      | .error e => (.error (.decode e), log)
      | .ok resp =>
        match resp.data with
        | [] => (.error .invalidUsername, log)
        | legacyUser :: _ =>
          match clientGet w (EndPointCloudUsers ++ legacyUser.id) [] with
          | (.error e, log2) => (.error e, log ++ log2)
          | (.ok body2, log2) =>
            match decodeUser body2 with
            | .error e => (.error (.decode e), log ++ log2)
            | .ok user => (.ok user, log ++ log2)

/-! ## Group operations (from `group.go`) -/

/-- Embeds `Client.GetGroupByID`: reject an empty ID, fetch and decode
the canonical group record, then strip the `users/` relation from the
owner field. -/
def getGroupByID (w : World) (groupID : String) : Except RGError Group × List HttpReq :=
  if groupID = "" then (.error .noGroupID, [])
  else
    match clientGet w (EndpointCloudGroups ++ groupID) [] with
    | (.error e, log) => (.error e, log)
    | (.ok body, log) =>
      match decodeGroup body with
      | .error e => (.error (.decode e), log)
      | .ok group => (.ok { group with ownerID := trimPfx "users/" group.ownerID }, log)

/-- Embeds `Client.GetGroupByGroupname`: reject an empty name, call the
legacy search with `groupName` as query parameter, fail with
`ErrInvalidGroupname` when the candidate list is empty or the first
candidate's name is not exactly the requested name, then fetch the
canonical record, overlay the legacy display name, and strip the
owner's `users/` relation. -/
def getGroupByGroupname (w : World) (groupname : String) : Except RGError Group × List HttpReq :=
  if groupname = "" then (.error .noGroupname, [])
  else
    match clientGet w EndpointLegacyGetGroups [("groupName", groupname)] with
    | (.error e, log) => (.error e, log)
    | (.ok respBody, log) =>
      match decodeLegacyGroupSearch respBody with
      | .error e => (.error (.decode e), log)
      | .ok resp =>
        match resp.data with
        | [] => (.error .invalidGroupname, log)
        | legacyGroup :: _ =>
          if legacyGroup.name ≠ groupname then (.error .invalidGroupname, log)
          else
            match clientGet w (EndpointCloudGroups ++ legacyGroup.id) [] with
            | (.error e, log2) => (.error e, log ++ log2)
            | (.ok body2, log2) =>
              match decodeGroup body2 with
              | .error e => (.error (.decode e), log ++ log2)
              | .ok group =>
                (.ok { group with
                        groupname := legacyGroup.name,
                        ownerID := trimPfx "users/" group.ownerID }, log ++ log2)

/-- Embeds `Group.GetRole`: reject an empty role ID, fetch the role
resource, and decode into a `*GroupRole` (which stays nil on a JSON
`null` body). -/
def getRole (w : World) (g : Group) (roleID : String) :
    Except RGError (Option GroupRole) × List HttpReq :=
  if roleID = "" then (.error .noRoleID, [])
  else
    match clientGet w (EndpointCloudGroups ++ g.id ++ "/roles/" ++ roleID) [] with
    | (.error e, log) => (.error e, log)
    | (.ok body, log) =>
      match decodeGroupRolePtr body with
      | .error e => (.error (.decode e), log)
      | .ok role => (.ok role, log)

/-- Embeds `Group.GetUserRole`: reject an empty user ID, resolve the
user, fetch the legacy `groups/roles` listing, take the first entry
whose group ID matches, and resolve its role through `GetRole`;
`ErrUserHasNoRole` when no entry matches. -/
def getUserRole (w : World) (g : Group) (userID : String) :
    Except RGError (Option GroupRole) × List HttpReq :=
  if userID = "" then (.error .noUserID, [])
  else
    match getUserByID w userID with
    | (.error e, log) => (.error e, log)
    | (.ok user, log) =>
      match clientGet w (EndpointLegacyGroups ++ "/v2/users/" ++ user.id ++ "/groups/roles") [] with
      | (.error e, log2) => (.error e, log ++ log2)
      | (.ok body, log2) =>
        match decodeUserRoleData body with
        | .error e => (.error (.decode e), log ++ log2)
        | .ok groupData =>
          match groupData.data.find? (fun entry => entry.groupID == g.id) with
          | none => (.error .userHasNoRole, log ++ log2)
          | some entry =>
            match getRole w g entry.role.id with
            | (.error e, log3) => (.error e, log ++ log2 ++ log3)
            | (.ok r, log3) => (.ok r, log ++ log2 ++ log3)

/-- Embeds `Group.JoinRequestAccept`: reject an empty user ID, resolve
the user, then post the `:accept` action with an empty JSON object. -/
def joinRequestAccept (w : World) (g : Group) (userID : String) :
    Except RGError Bool × List HttpReq :=
  if userID = "" then (.error .noUserID, [])
  else
    match getUserByID w userID with
    | (.error e, log) => (.error e, log)
    | (.ok _, log) =>
      match clientPost w (EndpointCloudGroups ++ g.id ++ "/join-requests/" ++ userID ++ ":accept") (.obj []) [] with
      | (.error e, log2) => (.error e, log ++ log2)
      | (.ok _, log2) => (.ok true, log ++ log2)

/-- Embeds `Group.JoinRequestDecline`: reject an empty user ID, resolve
the user, then post the `:decline` action with an empty JSON object. -/
def joinRequestDecline (w : World) (g : Group) (userID : String) :
    Except RGError Bool × List HttpReq :=
  if userID = "" then (.error .noUserID, [])
  else
    match getUserByID w userID with
    | (.error e, log) => (.error e, log)
    | (.ok _, log) =>
      match clientPost w (EndpointCloudGroups ++ g.id ++ "/join-requests/" ++ userID ++ ":decline") (.obj []) [] with
      | (.error e, log2) => (.error e, log ++ log2)
      | (.ok _, log2) => (.ok true, log ++ log2)

/-- Embeds `Group.UpdateUserRole`: reject empty IDs before any network
call, resolve user and role, then PATCH the membership; the Go code
dereferences the role pointer for the request body, which panics when
`GetRole` decoded a JSON `null` (modelled by `crash`). -/
def updateUserRole (w : World) (g : Group) (userID roleID : String) :
    Outcome GroupRole × List HttpReq :=
  if userID = "" then (.err .noUserID, [])
  else if roleID = "" then (.err .noRoleID, [])
  else
    match getUserByID w userID with
    | (.error e, log) => (.err e, log)
    | (.ok user, log) =>
      match getRole w g roleID with
      | (.error e, log2) => (.err e, log ++ log2)
      | (.ok none, log2) => (.crash, log ++ log2)
      | (.ok (some role), log2) =>
        let path := g.id ++ "/memberships/" ++ user.id
        let body : Json := .obj
          [("path", .str ("groups" ++ path)),
           ("role", .str ("groups/" ++ g.id ++ "/roles/" ++ role.id)),
           ("user", .str ("users/" ++ user.id))]
        match clientPatch w (EndpointCloudGroups ++ path) body with
        | (.error e, log3) => (.err e, log ++ log2 ++ log3)
        | (.ok _, log3) => (.ok role, log ++ log2 ++ log3)

/-- Embeds `Group.RemoveUser`: reject an empty user ID, then DELETE the
legacy membership resource. -/
def removeUser (w : World) (g : Group) (userID : String) :
    Except RGError Bool × List HttpReq :=
  if userID = "" then (.error .noUserID, [])
  else
    match clientDelete w (EndpointLegacyGroups ++ g.id ++ "/users/" ++ userID) with
    | (.error e, log) => (.error e, log)
    | (.ok _, log) => (.ok true, log)

/-! ## The paginated member listing (`GetMembers`) -/

/-- The membership page URL of a group. -/
def memberPageURL (g : Group) : String := EndpointCloudGroups ++ g.id ++ "/memberships"

/-- The query parameters of one membership page request: a fixed
`maxPageSize` of 100, plus the cursor when non-empty. -/
def memberPageQuery (tok : String) : List (String × String) :=
  if tok = "" then [("maxPageSize", "100")]
  else [("maxPageSize", "100"), ("pageToken", tok)]

/-- The per-item body of the `GetMembers` loop: strip the `users/`
relation, resolve the account (a failure skips the item), then resolve
the role with `role, _ := g.GetUserRole(userID)` and dereference it —
a failed or nil role resolution dereferences a nil pointer (`crash`). -/
def processMember (w : World) (g : Group) (rawUser : String) :
    Outcome (Option GroupMember) × List HttpReq :=
  let userID := trimPfx "users/" rawUser
  match getUserByID w userID with
  | (.error _, log) => (.ok none, log)
  | (.ok user, log) =>
    match getUserRole w g userID with
    | (.ok (some role), log2) => (.ok (some ⟨userID, user.username, role⟩), log ++ log2)
    | (.ok none, log2) => (.crash, log ++ log2)
    | (.error _, log2) => (.crash, log ++ log2)

/-- Process the raw items of one membership page in order, skipping
the items `processMember` skips and aborting on a crash. -/
def processMembers (w : World) (g : Group) : List String → Outcome (List GroupMember) × List HttpReq
  | [] => (.ok [], [])
  | raw :: rest =>
    match processMember w g raw with
    | (.crash, log) => (.crash, log)
    | (.err e, log) => (.err e, log)
    | (.ok o, log) =>
      match processMembers w g rest with
      | (.ok ms, log2) => (.ok (o.toList ++ ms), log ++ log2)
      | (.err e, log2) => (.err e, log ++ log2)
      | (.crash, log2) => (.crash, log ++ log2)

/-- Embeds the `GetMembers` pagination loop.  `fuel` bounds the number
of iterations of the Go `for` loop (which has no bound of its own);
`none` means the loop was still running when the fuel ran out.  The
third component counts the page requests issued.  A transport or page
decode error aborts the whole call, discarding accumulated members,
exactly as `return nil, err` does. -/
def getMembersLoop (w : World) (g : Group) :
    Nat → String → Option (Outcome (List GroupMember) × List HttpReq × Nat)
  | 0, _ => none
  | fuel + 1, pageToken =>
    match clientGet w (memberPageURL g) (memberPageQuery pageToken) with
    | (.error e, log) => some (.err e, log, 1)
    | (.ok body, log) =>
      match decodeMemberPage body with
      | .error e => some (.err (.decode e), log, 1)
      | .ok page =>
        match processMembers w g page.users with
        | (.crash, log2) => some (.crash, log ++ log2, 1)
        | (.err e, log2) => some (.err e, log ++ log2, 1)
        | (.ok ms, log2) =>
          if page.nextPage = "" then some (.ok ms, log ++ log2, 1)
          else
            match getMembersLoop w g fuel page.nextPage with
            | none => none
            | some (.ok rest, log3, n) => some (.ok (ms ++ rest), (log ++ log2) ++ log3, n + 1)
            | some (.err e, log3, n) => some (.err e, (log ++ log2) ++ log3, n + 1)
            | some (.crash, log3, n) => some (.crash, (log ++ log2) ++ log3, n + 1)

/-- Embeds `Group.GetMembers`: the pagination loop started with an
empty cursor. -/
def getMembers (w : World) (g : Group) (fuel : Nat) :
    Option (Outcome (List GroupMember) × List HttpReq × Nat) :=
  getMembersLoop w g fuel ""

/-! ## The paginated role listing (`GetRoles`) -/

/-- The roles page URL of a group. -/
def rolePageURL (g : Group) : String := EndpointCloudGroups ++ g.id ++ "/roles"

/-- The query parameters of one roles page request: a fixed
`maxPageSize` of 20, plus the cursor when non-empty. -/
def rolePageQuery (tok : String) : List (String × String) :=
  if tok = "" then [("maxPageSize", "20")]
  else [("maxPageSize", "20"), ("pageToken", tok)]

/-- The per-item body of the `GetRoles` loop: re-fetch each listed role
through `GetRole` (a failure skips the item) and dereference the
result — a role decoded from a JSON `null` dereferences nil (`crash`). -/
def processRole (w : World) (g : Group) (role : GroupRole) :
    Outcome (Option GroupRole) × List HttpReq :=
  match getRole w g role.id with
  | (.error _, log) => (.ok none, log)
  | (.ok none, log) => (.crash, log)
  | (.ok (some r), log) => (.ok (some r), log)

/-- Process the roles of one page in order. -/
def processRolesList (w : World) (g : Group) : List GroupRole → Outcome (List GroupRole) × List HttpReq
  | [] => (.ok [], [])
  | role :: rest =>
    match processRole w g role with
    | (.crash, log) => (.crash, log)
    | (.err e, log) => (.err e, log)
    | (.ok o, log) =>
      match processRolesList w g rest with
      | (.ok rs, log2) => (.ok (o.toList ++ rs), log ++ log2)
      | (.err e, log2) => (.err e, log ++ log2)
      | (.crash, log2) => (.crash, log ++ log2)

/-- Embeds the `GetRoles` pagination loop, under the same fuel
discipline as `getMembersLoop`. -/
def getRolesLoop (w : World) (g : Group) :
    Nat → String → Option (Outcome (List GroupRole) × List HttpReq × Nat)
  | 0, _ => none
  | fuel + 1, pageToken =>
    match clientGet w (rolePageURL g) (rolePageQuery pageToken) with
    | (.error e, log) => some (.err e, log, 1)
    | (.ok body, log) =>
      match decodeRolesPage body with
      | .error e => some (.err (.decode e), log, 1)
      | .ok page =>
        match processRolesList w g page.roles with
        | (.crash, log2) => some (.crash, log ++ log2, 1)
        | (.err e, log2) => some (.err e, log ++ log2, 1)
        | (.ok rs, log2) =>
          if page.nextPage = "" then some (.ok rs, log ++ log2, 1)
          else
            match getRolesLoop w g fuel page.nextPage with
            | none => none
            | some (.ok rest, log3, n) => some (.ok (rs ++ rest), (log ++ log2) ++ log3, n + 1)
            | some (.err e, log3, n) => some (.err e, (log ++ log2) ++ log3, n + 1)
            | some (.crash, log3, n) => some (.crash, (log ++ log2) ++ log3, n + 1)

/-- Embeds `Group.GetRoles`: the pagination loop started with an empty
cursor. -/
def getRoles (w : World) (g : Group) (fuel : Nat) :
    Option (Outcome (List GroupRole) × List HttpReq × Nat) :=
  getRolesLoop w g fuel ""

/-! ## The group icon lookup (`GetGroupIcon`) -/

/-- Embeds `Group.GetGroupIcon`: build the legacy thumbnail query,
fetch and decode `{data: [{imageUrl}]}`, and return
`thumbnailResponse.Data[0].ImageURL` — an unchecked index that panics
(`crash`) when the decoded data array is empty. -/
def getGroupIcon (w : World) (g : Group) (large isCircular : Bool) :
    Outcome String × List HttpReq :=
  let size := if large then "420x420" else "150x150"
  let querySet : List (String × String) :=
    [("groupIds", g.id), ("format", "Png"), ("size", size),
     ("isCircular", if isCircular then "true" else "false")]
  match clientGet w EndpointLegacyGetGroupIcon querySet with
  | (.error e, log) => (.err e, log)
  | (.ok body, log) =>
    match decodeThumbData body with
    | .error e => (.err (.decode e), log)
    | .ok td =>
      match td.data with
      | [] => (.crash, log)
      | imageURL :: _ => (.ok imageURL, log)

/-! ## Supporting lemmas on the character-list utilities -/

/-- Appending never disturbs a leading-segment test on its own left part. -/
lemma listHasPfx_append (p t : List Char) : listHasPfx p (p ++ t) = true := by
  induction p with
  | nil => rfl
  | cons a as ih => simp [listHasPfx, ih]

/-- A leading-segment test succeeds exactly on extensions of the pattern. -/
lemma listHasPfx_iff (p s : List Char) : listHasPfx p s = true ↔ ∃ t, s = p ++ t := by
  induction p generalizing s with
  | nil => simp [listHasPfx]
  | cons a as ih =>
    cases s with
    | nil => simp [listHasPfx]
    | cons b bs =>
      simp only [listHasPfx, Bool.and_eq_true, beq_iff_eq, ih, List.cons_append,
        List.cons.injEq]
      constructor
      · rintro ⟨hab, t, ht⟩
        exact ⟨t, hab.symm, ht⟩
      · rintro ⟨t, hab, ht⟩
        exact ⟨hab.symm, t, ht⟩

/-- A common left part cancels in a leading-segment test. -/
lemma listHasPfx_append_cancel (p q t : List Char) :
    listHasPfx (p ++ q) (p ++ t) = listHasPfx q t := by
  induction p with
  | nil => rfl
  | cons a as ih => simp [listHasPfx, ih]

/-- A longer pattern succeeding forces its left part to succeed. -/
lemma listHasPfx_of_append (p q s : List Char) (h : listHasPfx (p ++ q) s = true) :
    listHasPfx p s = true := by
  rcases (listHasPfx_iff _ _).1 h with ⟨t, ht⟩
  exact (listHasPfx_iff _ _).2 ⟨q ++ t, by simp [ht]⟩

/-- A pattern occurs inside any list that contains it contiguously. -/
lemma listHasSub_mid (p x t : List Char) : listHasSub p (x ++ (p ++ t)) = true := by
  induction x with
  | nil =>
    cases hp : p ++ t with
    | nil =>
      rcases List.append_eq_nil.1 hp with ⟨hp1, _⟩
      simp [hp, listHasSub, hp1]
    | cons c rest =>
      have hpfx := listHasPfx_append p t
      rw [hp] at hpfx
      simp [listHasSub, hp, hpfx]
  | cons c cs ih => simp [listHasSub, ih]

/-- String-level form of `listHasSub_mid`. -/
lemma strHasSub_mid (p x t : String) : strHasSub p (x ++ (p ++ t)) = true := by
  have hx : (x ++ (p ++ t)).data = x.data ++ (p.data ++ t.data) := rfl
  simp only [strHasSub, hx]
  exact listHasSub_mid p.data x.data t.data

/-! ## Claim theorems -/

/-- C5: every operation that takes a string identifier or key —
`GetUserByID`, `GetGroupByID`, `GetRole`, `GetUserByUsername`,
`GetGroupByGroupname`, `GetUserRole`, `JoinRequestAccept`,
`JoinRequestDecline`, `UpdateUserRole` (for both of its IDs),
`RemoveUser` — returns its named validation error on the empty string
and issues no HTTP request at all (the request trace is empty), for
every world and group. -/
theorem C5_empty_key_validation (w : World) (g : Group) :
    getUserByID w "" = (.error .noUserID, []) ∧
    getGroupByID w "" = (.error .noGroupID, []) ∧
    getRole w g "" = (.error .noRoleID, []) ∧
    getUserByUsername w "" = (.error .noUsername, []) ∧
    getGroupByGroupname w "" = (.error .noGroupname, []) ∧
    getUserRole w g "" = (.error .noUserID, []) ∧
    joinRequestAccept w g "" = (.error .noUserID, []) ∧
    joinRequestDecline w g "" = (.error .noUserID, []) ∧
    updateUserRole w g "" "7" = (.err .noUserID, []) ∧
    updateUserRole w g "7" "" = (.err .noRoleID, []) ∧
    removeUser w g "" = (.error .noUserID, []) :=
  ⟨rfl, rfl, rfl, rfl, rfl, rfl, rfl, rfl, rfl, rfl, rfl⟩

/-- C8 counterexample: stripping the `users/` relation with
`strings.TrimPrefix` is not idempotent on every input — on
`"users/users/42"` a second application strips again. -/
theorem C8_counterexample :
    ¬ (trimPfx "users/" (trimPfx "users/" "users/users/42") =
        trimPfx "users/" "users/users/42") := by decide

/-- C8 amended: the normalization is total (it is a function on all
strings), sends `"users/42"` to `"42"` and leaves `"42"` unchanged,
and applying it twice equals applying it once exactly for the inputs
that do not begin with a doubled `"users/users/"` relation. -/
theorem C8_amended :
    trimPfx "users/" "users/42" = "42" ∧
    trimPfx "users/" "42" = "42" ∧
    ∀ s : String,
      trimPfx "users/" (trimPfx "users/" s) = trimPfx "users/" s ↔
        listHasPfx "users/users/".data s.data = false := by
  refine ⟨by decide, by decide, fun s => ?_⟩
  have hdouble : ("users/users/" : String).data = "users/".data ++ "users/".data := by decide
  by_cases h1 : listHasPfx "users/".data s.data = true
  · rcases (listHasPfx_iff _ _).1 h1 with ⟨t, ht⟩
    have hdrop : s.data.drop 6 = t := by
      rw [ht]; exact List.drop_left "users/".data t
    have htrim1 : trimPfx "users/" s = { data := t } := by
      simp [trimPfx, h1, hdrop]
    by_cases h2 : listHasPfx "users/".data t = true
    · rcases (listHasPfx_iff _ _).1 h2 with ⟨t2, ht2⟩
      have hdrop2 : t.drop 6 = t2 := by
        rw [ht2]; exact List.drop_left "users/".data t2
      have htrim2 : trimPfx "users/" { data := t } = { data := t2 } := by
        simp [trimPfx, h2, hdrop2]
      rw [htrim1, htrim2]
      apply iff_of_false
      · intro hEq
        have hdata : t2 = t := by
          have := congrArg String.data hEq
          simpa using this
        rw [ht2] at hdata
        have hlen := congrArg List.length hdata
        simp [List.length_append] at hlen
        omega
      · have htrue : listHasPfx ("users/users/" : String).data s.data = true := by
          rw [hdouble, ht, ht2, ← List.append_assoc]
          exact listHasPfx_append _ _
        simp [htrue]
    · have htrim2 : trimPfx "users/" { data := t } = { data := t } := by
        simp [trimPfx, h2]
      rw [htrim1, htrim2]
      refine iff_of_true rfl ?_
      rw [hdouble, ht, listHasPfx_append_cancel]
      simpa using h2
  · have htrim1 : trimPfx "users/" s = s := by
      simp [trimPfx, h1]
    rw [htrim1, htrim1]
    refine iff_of_true rfl ?_
    rw [hdouble]
    by_contra hcon
    simp only [Bool.not_eq_false] at hcon
    exact h1 (listHasPfx_of_append _ _ _ hcon)

/-- String append acts as list append on the underlying data. -/
lemma str_data_append (a b : String) : (a ++ b).data = a.data ++ b.data := rfl

/-- C2 counterexample: for a status code outside the fixed table (418),
`getFullHttpError` reads the Go map's zero value `{0, ""}` and produces
the message `http error 0: `, which does not include the numeric
status code of the response. -/
theorem C2_counterexample :
    getFullHttpError 418 = "http error 0: " ∧
    strHasSub "418" (getFullHttpError 418) = false := by
  exact ⟨by decide, by decide⟩

/-- C2 amended: every non-200 status makes the transport return a
non-nil error built by `getFullHttpError`; for the eight documented
non-200 codes the message contains both the numeric code and its fixed
description; for a code outside the table `getFullHttpError` yields the
generic message `http error 0: ` that does not carry the status, while
the `httpErrorCheck`-generation classifier always embeds the numeric
status through the status line. -/
theorem C2_amended :
    (∀ (w : World) (url : String) (q : List (String × String)) (status : Nat) (body : Json),
        status ≠ 200 →
        w (newHttpRequest "GET" url none [] q) = (status, body) →
        clientGet w url q =
          (.error (.http (getFullHttpError status)), [newHttpRequest "GET" url none [] q])) ∧
    (strHasSub "400" (getFullHttpError 400) = true ∧
      strHasSub "invalid argument passed" (getFullHttpError 400) = true) ∧
    (strHasSub "403" (getFullHttpError 403) = true ∧
      strHasSub "missing permission scopes" (getFullHttpError 403) = true) ∧
    (strHasSub "404" (getFullHttpError 404) = true ∧
      strHasSub "resource not found" (getFullHttpError 404) = true) ∧
    (strHasSub "409" (getFullHttpError 409) = true ∧
      strHasSub "operation aborted" (getFullHttpError 409) = true) ∧
    (strHasSub "429" (getFullHttpError 429) = true ∧
      strHasSub "too many requests" (getFullHttpError 429) = true) ∧
    (strHasSub "499" (getFullHttpError 499) = true ∧
      strHasSub "system terminated request" (getFullHttpError 499) = true) ∧
    (strHasSub "500" (getFullHttpError 500) = true ∧
      strHasSub "the service replied with internal server error" (getFullHttpError 500) = true) ∧
    (strHasSub "503" (getFullHttpError 503) = true ∧
      strHasSub "the service is currently unavailable" (getFullHttpError 503) = true) ∧
    (getFullHttpError 418 = "http error 0: ") ∧
    (∀ (status : Nat) (statusText bodyText : String), status ≠ 200 →
      ∃ m, httpErrorCheckMsg status statusText bodyText = some m ∧
        strHasSub (Nat.repr status) m = true) := by
  refine ⟨?_, ⟨by decide, by decide⟩, ⟨by decide, by decide⟩, ⟨by decide, by decide⟩,
    ⟨by decide, by decide⟩, ⟨by decide, by decide⟩, ⟨by decide, by decide⟩,
    ⟨by decide, by decide⟩, ⟨by decide, by decide⟩, by decide, ?_⟩
  · intro w url q status body hst hw
    simp [clientGet, hw, hst]
  · intro status statusText bodyText hst
    refine ⟨"http error " ++ (Nat.repr status ++ " " ++ statusText) ++ ": " ++ bodyText, ?_, ?_⟩
    · simp [httpErrorCheckMsg, hst]
    · simp only [strHasSub, str_data_append, List.append_assoc]
      exact listHasSub_mid _ _ _

/-- The world used by the C2 witness: it answers every request with a
404 and an empty body. -/
def w404 : World := fun _ => (404, .null)

/-- C2 witness: the amended classification facts at the concrete status
codes 404 and 418. -/
theorem C2_witness :
    clientGet w404 "https://apis.roblox.com/cloud/v2/users/1" [] =
      (.error (.http (getFullHttpError 404)),
        [newHttpRequest "GET" "https://apis.roblox.com/cloud/v2/users/1" none [] []]) ∧
    (∃ m, httpErrorCheckMsg 418 "I am a teapot" "short and stout" = some m ∧
      strHasSub (Nat.repr 418) m = true) :=
  ⟨C2_amended.1 w404 "https://apis.roblox.com/cloud/v2/users/1" [] 404 .null (by decide) rfl,
    C2_amended.2.2.2.2.2.2.2.2.2.2 418 "I am a teapot" "short and stout" (by decide)⟩

/-- C7: identifier decoding is invariant under the wire representation.
For any valid numeric literal, decoding it from a JSON number and from
a JSON string into a `json.Number` identifier field both succeed and
store the same canonical string, both at the field level and through
the whole `User` and `Group` record decoders. -/
theorem C7_wire_invariance (old lit : String) (h : goIsValidNumber lit = true) :
    decodeNumberInto old (.num lit) = .ok lit ∧
    decodeNumberInto old (.str lit) = .ok lit ∧
    decodeUser (.obj [("id", .num lit)]) = .ok { zeroUser with id := lit } ∧
    decodeUser (.obj [("id", .str lit)]) = .ok { zeroUser with id := lit } ∧
    decodeGroup (.obj [("id", .num lit)]) = .ok { zeroGroup with id := lit } ∧
    decodeGroup (.obj [("id", .str lit)]) = .ok { zeroGroup with id := lit } := by
  refine ⟨rfl, ?_, ?_, ?_, ?_, ?_⟩ <;>
    simp [decodeNumberInto, decodeUser, decodeUserFrom, decodeFields, setUserField,
      decodeGroup, decodeGroupFrom, setGroupField, h, zeroUser, zeroGroup, Except.map]

/-- C7 witness: the wire-representation invariance at the concrete
literal `123`. -/
theorem C7_witness :
    goIsValidNumber "123" = true ∧
    decodeUser (.obj [("id", .num "123")]) = .ok { zeroUser with id := "123" } ∧
    decodeUser (.obj [("id", .str "123")]) = .ok { zeroUser with id := "123" } :=
  ⟨by decide, (C7_wire_invariance "" "123" (by decide)).2.2.1,
    (C7_wire_invariance "" "123" (by decide)).2.2.2.1⟩

/-- C9 counterexample world: a 200 response whose body is the empty
JSON object, so every required field of the target record is missing. -/
def wEmptyObj : World := fun _ => (200, .obj [])

/-- C9 counterexample: a 200 response with no `id` field does not make
`GetUserByID` return a decode error — it succeeds with a fully
defaulted record and a nil error. -/
theorem C9_counterexample :
    getUserByID wEmptyObj "5" =
      (.ok zeroUser, [newHttpRequest "GET" (EndPointCloudUsers ++ "5") none [] []]) := rfl

/-- C9 amended: Go's `encoding/json` treats a missing field as a no-op,
so a 200 body missing required fields decodes to the zero record with a
nil error in both `GetUserByID` and `GetGroupByID`; only a kind
mismatch (for example a boolean `id`) is a decode error, and that error
is propagated to the caller. -/
theorem C9_amended :
    (∀ (w : World) (uid : String), uid ≠ "" →
        w (newHttpRequest "GET" (EndPointCloudUsers ++ uid) none [] []) = (200, .obj []) →
        getUserByID w uid =
          (.ok zeroUser, [newHttpRequest "GET" (EndPointCloudUsers ++ uid) none [] []])) ∧
    (∀ (w : World) (gid : String), gid ≠ "" →
        w (newHttpRequest "GET" (EndpointCloudGroups ++ gid) none [] []) = (200, .obj []) →
        getGroupByID w gid =
          (.ok zeroGroup, [newHttpRequest "GET" (EndpointCloudGroups ++ gid) none [] []])) ∧
    (∀ (w : World) (uid : String), uid ≠ "" →
        w (newHttpRequest "GET" (EndPointCloudUsers ++ uid) none [] []) =
          (200, .obj [("id", .bool true)]) →
        getUserByID w uid =
          (.error (.decode (.wrongType "cannot unmarshal bool into json.Number")),
            [newHttpRequest "GET" (EndPointCloudUsers ++ uid) none [] []])) ∧
    (∀ (w : World) (gid : String), gid ≠ "" →
        w (newHttpRequest "GET" (EndpointCloudGroups ++ gid) none [] []) =
          (200, .obj [("id", .bool true)]) →
        getGroupByID w gid =
          (.error (.decode (.wrongType "cannot unmarshal bool into json.Number")),
            [newHttpRequest "GET" (EndpointCloudGroups ++ gid) none [] []])) := by
  have htrim : trimPfx "users/" "" = "" := by decide
  refine ⟨?_, ?_, ?_, ?_⟩
  · intro w uid h hw
    simp [getUserByID, h, clientGet, hw, decodeUser, decodeUserFrom, decodeFields]
  · intro w gid h hw
    simp [getGroupByID, h, clientGet, hw, decodeGroup, decodeGroupFrom, decodeFields, htrim,
      zeroGroup]
  · intro w uid h hw
    simp [getUserByID, h, clientGet, hw, decodeUser, decodeUserFrom, decodeFields,
      setUserField, decodeNumberInto, Except.map]
  · intro w gid h hw
    simp [getGroupByID, h, clientGet, hw, decodeGroup, decodeGroupFrom, decodeFields,
      setGroupField, decodeNumberInto, Except.map]

/-- C9 world with a kind mismatch on the identifier field. -/
def wIdBool : World := fun _ => (200, .obj [("id", .bool true)])

/-- C9 witness: the amended decode behaviour at a concrete user ID,
for both the missing-field body and the mismatched-kind body. -/
theorem C9_witness :
    getUserByID wEmptyObj "6" =
      (.ok zeroUser, [newHttpRequest "GET" (EndPointCloudUsers ++ "6") none [] []]) ∧
    getUserByID wIdBool "6" =
      (.error (.decode (.wrongType "cannot unmarshal bool into json.Number")),
        [newHttpRequest "GET" (EndPointCloudUsers ++ "6") none [] []]) :=
  ⟨C9_amended.1 wEmptyObj "6" (by decide) rfl,
    C9_amended.2.2.1 wIdBool "6" (by decide) rfl⟩

/-- The request `GetGroupIcon` issues, as built by the transport. -/
def iconReq (g : Group) (large isCircular : Bool) : HttpReq :=
  newHttpRequest "GET" EndpointLegacyGetGroupIcon none []
    [("groupIds", g.id), ("format", "Png"),
     ("size", if large then "420x420" else "150x150"),
     ("isCircular", if isCircular then "true" else "false")]

/-- C10 counterexample world: a 200 thumbnail response whose `data`
array is empty. -/
def wIconEmpty : World := fun _ => (200, .obj [("data", .arr [])])

/-- C10 counterexample: on a 200 response whose decoded `data` array is
empty, `GetGroupIcon` evaluates `thumbnailResponse.Data[0]` out of
bounds and the call aborts by a runtime panic instead of returning a
URL or an error. -/
theorem C10_counterexample :
    getGroupIcon wIconEmpty zeroGroup false false =
      (.crash, [iconReq zeroGroup false false]) := rfl

/-- C10 amended: whenever the decoded thumbnail listing is non-empty
(and on every transport or decode failure), `GetGroupIcon` returns a
URL or an error and never panics; the unchecked `Data[0]` access makes
the empty-`data` case the sole aborting input. -/
theorem C10_amended (w : World) (g : Group) (large isCircular : Bool)
    (h : ∀ td : ThumbData,
        decodeThumbData (w (iconReq g large isCircular)).2 = .ok td → td.data ≠ []) :
    (getGroupIcon w g large isCircular).1 ≠ .crash := by
  rcases hw : w (iconReq g large isCircular) with ⟨st, body⟩
  have hbody : ∀ td : ThumbData, decodeThumbData body = .ok td → td.data ≠ [] := by
    intro td hd
    refine h td ?_
    rw [hw]
    exact hd
  simp only [getGroupIcon, clientGet]
  simp only [iconReq] at hw
  rw [hw]
  by_cases hst : st = 200
  · subst hst
    simp only [ne_eq, not_true_eq_false, reduceIte]
    cases hdec : decodeThumbData body with
    | error e => simp
    | ok td =>
      cases htd : td.data with
      | nil => exact absurd htd (hbody td hdec)
      | cons a rest => simp [htd]
  · simp [hst]

/-- C10 witness world: a 200 thumbnail response with one entry. -/
def wIconOne : World :=
  fun _ => (200, .obj [("data", .arr [.obj [("imageUrl", .str "https://cdn.example/icon.png")]])])

/-- C10 witness: the amended no-panic guarantee at a concrete world
whose thumbnail listing is non-empty. -/
theorem C10_witness : (getGroupIcon wIconOne zeroGroup false false).1 ≠ .crash :=
  C10_amended wIconOne zeroGroup false false (by
    intro td hd
    have h2 : (Except.ok (⟨["https://cdn.example/icon.png"]⟩ : ThumbData) :
        Except DErr ThumbData) = .ok td := hd
    injection h2 with h3
    rw [← h3]
    decide)

/-- C6 counterexample: the older direct-construction transport builds
bodiless GET and DELETE requests that do carry the
`Content-Type: application/json` header. -/
theorem C6_counterexample :
    hasHeader (oldGetRequest (EndPointCloudUsers ++ "1") [] []) "Content-Type" "application/json" = true ∧
    (oldGetRequest (EndPointCloudUsers ++ "1") [] []).body = none ∧
    hasHeader (oldDeleteRequest (EndpointLegacyGroups ++ "3/users/5") []) "Content-Type" "application/json" = true ∧
    (oldDeleteRequest (EndpointLegacyGroups ++ "3/users/5") []).body = none :=
  ⟨rfl, rfl, rfl, rfl⟩

/-- C6 amended: in the `newHttpRequest`-generation transport, the
`Content-Type: application/json` header is attached exactly when a JSON
body is present at the repository's call sites (callers pass no extra
headers): bodiless GET and DELETE carry no `Content-Type`, while POST
and PATCH with a body always carry it.  In the older transport methods
that build requests directly, the header is set unconditionally, on
bodiless GET and DELETE included. -/
theorem C6_amended :
    (∀ (url : String) (q : List (String × String)),
        hasHeader (newHttpRequest "GET" url none [] q) "Content-Type" "application/json" = false ∧
        (newHttpRequest "GET" url none [] q).body = none) ∧
    (∀ url : String,
        hasHeader (newHttpRequest "DELETE" url none [] []) "Content-Type" "application/json" = false ∧
        (newHttpRequest "DELETE" url none [] []).body = none) ∧
    (∀ (url : String) (body : Json) (q : List (String × String)),
        hasHeader (newHttpRequest "POST" url (some body) [] q) "Content-Type" "application/json" = true ∧
        (newHttpRequest "POST" url (some body) [] q).body = some body) ∧
    (∀ (url : String) (body : Json),
        hasHeader (newHttpRequest "PATCH" url (some body) [] []) "Content-Type" "application/json" = true ∧
        (newHttpRequest "PATCH" url (some body) [] []).body = some body) ∧
    (∀ (url : String) (q : List (String × String)),
        hasHeader (oldGetRequest url [] q) "Content-Type" "application/json" = true ∧
        (oldGetRequest url [] q).body = none) :=
  ⟨fun _ _ => ⟨rfl, rfl⟩, fun _ => ⟨rfl, rfl⟩, fun _ _ _ => ⟨rfl, rfl⟩,
    fun _ _ => ⟨rfl, rfl⟩, fun _ _ => ⟨rfl, rfl⟩⟩

/-! ## C1: the two cross-API by-name resolvers -/

/-- The legacy search request issued by `GetGroupByGroupname`. -/
def groupSearchReq (groupname : String) : HttpReq :=
  newHttpRequest "GET" EndpointLegacyGetGroups none [] [("groupName", groupname)]

/-- The legacy usernames request issued by `GetUserByUsername`. -/
def userSearchReq (username : String) : HttpReq :=
  newHttpRequest "POST" EndpointLegacyGetUsers (some (usersSearchBody username)) [] []

/-- The canonical user fetch issued after a successful legacy lookup. -/
def canonUserReq (uid : String) : HttpReq :=
  newHttpRequest "GET" (EndPointCloudUsers ++ uid) none [] []

/-- C1 counterexample world: the legacy usernames lookup returns one
candidate named `Bob` (not the requested key), and the canonical user
endpoint answers normally. -/
def wC1 : World := fun r =>
  if r.method == "POST"
  then (200, .obj [("data", .arr [.obj [("id", .num "55"), ("name", .str "Bob")]])])
  else (200, .obj [("id", .num "55"), ("name", .str "Bob")])

/-- C1 counterexample: `GetUserByUsername "alice"` receives a first
candidate whose name `Bob` differs from the requested key, yet it does
not return the invalid-key error — it issues the second canonical
fetch and succeeds. -/
theorem C1_counterexample :
    getUserByUsername wC1 "alice" =
      (.ok { zeroUser with id := "55", username := "Bob" },
        [userSearchReq "alice", canonUserReq "55"]) := rfl

/-- C1 amended: `GetGroupByGroupname` fails with `ErrInvalidGroupname`
and issues no second fetch when the candidate list is empty or the
first candidate's name differs (case-sensitively) from the key, but
`GetUserByUsername` checks only that the candidate list is non-empty:
an empty list yields `ErrInvalidUsername` with no second fetch, while a
first candidate with any name — matching or not — triggers the
canonical fetch and the operation succeeds. -/
theorem C1_amended :
    (∀ (w : World) (key : String) (body : Json) (resp : LegacyGroupSearch),
        key ≠ "" →
        w (groupSearchReq key) = (200, body) →
        decodeLegacyGroupSearch body = .ok resp →
        (resp.data = [] ∨ ∃ c rest, resp.data = c :: rest ∧ c.name ≠ key) →
        getGroupByGroupname w key = (.error .invalidGroupname, [groupSearchReq key])) ∧
    (∀ (w : World) (key : String) (body : Json),
        key ≠ "" →
        w (userSearchReq key) = (200, body) →
        decodeUsersSearch body = .ok ⟨[]⟩ →
        getUserByUsername w key = (.error .invalidUsername, [userSearchReq key])) ∧
    (∀ (w : World) (key : String) (body body2 : Json) (c : User) (rest : List User) (v : User),
        key ≠ "" →
        w (userSearchReq key) = (200, body) →
        decodeUsersSearch body = .ok ⟨c :: rest⟩ →
        c.username ≠ key →
        w (canonUserReq c.id) = (200, body2) →
        decodeUser body2 = .ok v →
        getUserByUsername w key = (.ok v, [userSearchReq key, canonUserReq c.id])) := by
  refine ⟨?_, ?_, ?_⟩
  · intro w key body resp hk hw hdec hcase
    simp only [groupSearchReq] at hw
    simp only [getGroupByGroupname, clientGet, groupSearchReq]
    rw [if_neg hk, hw]
    simp only [ne_eq, not_true_eq_false, reduceIte, hdec]
    rcases hcase with hnil | ⟨c, rest, hd, hname⟩
    · rw [hnil]
    · rw [hd]
      simp [hname]
  · intro w key body hk hw hdec
    simp only [userSearchReq] at hw
    simp only [getUserByUsername, clientPost, userSearchReq]
    rw [if_neg hk, hw]
    simp only [ne_eq, not_true_eq_false, reduceIte, hdec]
  · intro w key body body2 c rest v hk hw hdec hname hw2 hdec2
    simp only [userSearchReq] at hw
    simp only [canonUserReq] at hw2
    simp only [getUserByUsername, clientPost, clientGet, userSearchReq, canonUserReq]
    rw [if_neg hk, hw]
    simp only [ne_eq, not_true_eq_false, reduceIte, hdec, hw2, hdec2]
    rfl

/-- C1 witness world for the group resolver: the first candidate is
named `Alpha`, differing from the requested key `alpha` only in case. -/
def wC1g : World :=
  fun _ => (200, .obj [("data", .arr [.obj [("id", .num "9"), ("name", .str "Alpha")]])])

/-- C1 witness world for the empty usernames candidate list. -/
def wC1e : World := fun _ => (200, .obj [("data", .arr [])])

/-- C1 witness: the amended resolver behaviour at concrete worlds —
the case-mismatched group lookup fails with one request, the empty user
candidate list fails with one request, and the name-mismatched user
lookup succeeds with two requests. -/
theorem C1_witness :
    getGroupByGroupname wC1g "alpha" = (.error .invalidGroupname, [groupSearchReq "alpha"]) ∧
    getUserByUsername wC1e "carol" = (.error .invalidUsername, [userSearchReq "carol"]) ∧
    getUserByUsername wC1 "alice" =
      (.ok { zeroUser with id := "55", username := "Bob" },
        [userSearchReq "alice", canonUserReq "55"]) :=
  ⟨C1_amended.1 wC1g "alpha" (.obj [("data", .arr [.obj [("id", .num "9"), ("name", .str "Alpha")]])])
      ⟨[⟨"9", "Alpha"⟩]⟩ (by decide) rfl rfl
      (.inr ⟨⟨"9", "Alpha"⟩, [], rfl, by decide⟩),
    C1_amended.2.1 wC1e "carol" (.obj [("data", .arr [])]) (by decide) rfl rfl,
    C1_amended.2.2 wC1 "alice"
      (.obj [("data", .arr [.obj [("id", .num "55"), ("name", .str "Bob")]])])
      (.obj [("id", .num "55"), ("name", .str "Bob")])
      { zeroUser with id := "55", username := "Bob" } []
      { zeroUser with id := "55", username := "Bob" }
      (by decide) rfl rfl (by decide) rfl rfl⟩

/-! ## Pagination chains (for the C4 analysis) -/

/-- The membership page the world serves for a cursor, when the fetch
succeeds and decodes. -/
def fetchMemberPage (w : World) (g : Group) (tok : String) : Option MemberPage :=
  match clientGet w (memberPageURL g) (memberPageQuery tok) with
  | (.ok body, _) => (decodeMemberPage body).toOption
  | (.error _, _) => none

/-- A finite cursor chain of membership pages: each page is served for
the running cursor, every page except the last carries a non-empty
`nextPageToken`, and exactly the last page carries the empty one. -/
def memberChain (w : World) (g : Group) : String → List MemberPage → Prop
  | _, [] => False
  | tok, [p] => fetchMemberPage w g tok = some p ∧ p.nextPage = ""
  | tok, p :: q :: rest =>
    fetchMemberPage w g tok = some p ∧ p.nextPage ≠ "" ∧ memberChain w g p.nextPage (q :: rest)

/-- The member a raw item maps to, when its secondary lookups succeed
(`none` when the item is skipped or would crash). -/
def mappedMember (w : World) (g : Group) (raw : String) : Option GroupMember :=
  match processMember w g raw with
  | (.ok o, _) => o
  | (.err _, _) => none
  | (.crash, _) => none

/-- The successfully mapped members of one page, in item order. -/
def pageMapped (w : World) (g : Group) (p : MemberPage) : List GroupMember :=
  p.users.filterMap (mappedMember w g)

/-- `processMember` only ever skips, succeeds, or crashes — it never
returns an error outcome. -/
lemma processMember_shape (w : World) (g : Group) (raw : String) :
    (∃ o log, processMember w g raw = (.ok o, log)) ∨
    (∃ log, processMember w g raw = (.crash, log)) := by
  simp only [processMember]
  rcases h1 : getUserByID w (trimPfx "users/" raw) with ⟨r1, log1⟩
  cases r1 with
  | error e1 => exact .inl ⟨none, log1, rfl⟩
  | ok user =>
    rcases h2 : getUserRole w g (trimPfx "users/" raw) with ⟨r2, log2⟩
    cases r2 with
    | error e2 => exact .inr ⟨log1 ++ log2, rfl⟩
    | ok o =>
      cases o with
      | none => exact .inr ⟨log1 ++ log2, rfl⟩
      | some role =>
        exact .inl ⟨some ⟨trimPfx "users/" raw, user.username, role⟩, log1 ++ log2, rfl⟩

/-- When no item of a page crashes, the page processing succeeds and
returns exactly the successfully mapped items, in order. -/
lemma processMembers_no_crash (w : World) (g : Group) :
    ∀ raws : List String,
      (∀ raw ∈ raws, (processMember w g raw).1 ≠ Outcome.crash) →
      ∃ log, processMembers w g raws = (.ok (raws.filterMap (mappedMember w g)), log) := by
  intro raws
  induction raws with
  | nil => intro _; exact ⟨[], rfl⟩
  | cons raw rest ih =>
    intro h
    rcases ih (fun r hr => h r (List.mem_cons_of_mem _ hr)) with ⟨log2, hrest⟩
    rcases processMember_shape w g raw with ⟨o, log1, hpm⟩ | ⟨log1, hpm⟩
    · refine ⟨log1 ++ log2, ?_⟩
      have hmm : mappedMember w g raw = o := by simp [mappedMember, hpm]
      simp only [processMembers, hpm, hrest]
      cases o with
      | none => simp [List.filterMap_cons, hmm]
      | some m => simp [List.filterMap_cons, hmm]
    · exact absurd (by rw [hpm]) (h raw (List.mem_cons_self _ _))

/-- Inversion of a successful page fetch into its transport call and
its decode. -/
lemma fetchMemberPage_inv (w : World) (g : Group) (tok : String) (p : MemberPage)
    (h : fetchMemberPage w g tok = some p) :
    ∃ log body, clientGet w (memberPageURL g) (memberPageQuery tok) = (.ok body, log) ∧
      decodeMemberPage body = .ok p := by
  rcases hc : clientGet w (memberPageURL g) (memberPageQuery tok) with ⟨res, log⟩
  simp only [fetchMemberPage, hc] at h
  cases res with
  | error e => exact Option.noConfusion (show (none : Option MemberPage) = some p from h)
  | ok body =>
    have h2 : (decodeMemberPage body).toOption = some p := h
    cases hd : decodeMemberPage body with
    | error e => rw [hd] at h2; exact Option.noConfusion h2
    | ok q =>
      rw [hd] at h2
      have h3 : q = p := Option.some.inj h2
      subst h3
      exact ⟨log, body, rfl, hd⟩

/-- Along a member cursor chain with no crashing item, the pagination
loop terminates within `length` iterations, issues exactly one page
request per page (none after the empty-cursor page), and returns the
concatenation of all pages' successfully mapped items in page order,
with a nil error. -/
lemma getMembersLoop_chain (w : World) (g : Group) :
    ∀ (pages : List MemberPage) (tok : String) (fuel : Nat),
      memberChain w g tok pages →
      (∀ p ∈ pages, ∀ raw ∈ p.users, (processMember w g raw).1 ≠ Outcome.crash) →
      pages.length ≤ fuel →
      ∃ log, getMembersLoop w g fuel tok =
        some (.ok ((pages.map (pageMapped w g)).flatten), log, pages.length) := by
  intro pages
  induction pages with
  | nil => intro tok fuel hchain _ _; exact False.elim hchain
  | cons p tail ih =>
    intro tok fuel hchain hnc hlen
    cases fuel with
    | zero => simp at hlen
    | succ f =>
      cases tail with
      | nil =>
        obtain ⟨hfetch, hlast⟩ := hchain
        rcases fetchMemberPage_inv w g tok p hfetch with ⟨log1, body, hc, hd⟩
        rcases processMembers_no_crash w g p.users
          (hnc p (List.mem_cons_self _ _)) with ⟨log2, hpm⟩
        refine ⟨log1 ++ log2, ?_⟩
        simp only [getMembersLoop, hc, hd, hpm, hlast, reduceIte]
        simp [pageMapped]
      | cons q rest =>
        obtain ⟨hfetch, hne, hchain2⟩ := hchain
        rcases fetchMemberPage_inv w g tok p hfetch with ⟨log1, body, hc, hd⟩
        rcases processMembers_no_crash w g p.users
          (hnc p (List.mem_cons_self _ _)) with ⟨log2, hpm⟩
        have hlen2 : (q :: rest).length ≤ f := by
          simp only [List.length_cons] at hlen ⊢
          omega
        rcases ih p.nextPage f hchain2
          (fun r hr raw hraw => hnc r (List.mem_cons_of_mem _ hr) raw hraw) hlen2
          with ⟨log3, hrec⟩
        refine ⟨(log1 ++ log2) ++ log3, ?_⟩
        simp only [getMembersLoop, hc, hd, hpm, hne, reduceIte, hrec]
        simp [pageMapped]

/-! ## Role-listing chains (the `GetRoles` half of C4) -/

/-- The roles page the world serves for a cursor, when the fetch
succeeds and decodes. -/
def fetchRolesPage (w : World) (g : Group) (tok : String) : Option RolesPage :=
  match clientGet w (rolePageURL g) (rolePageQuery tok) with
  | (.ok body, _) => (decodeRolesPage body).toOption
  | (.error _, _) => none

/-- A finite cursor chain of roles pages, with exactly the last page
carrying the empty `nextPageToken`. -/
def roleChain (w : World) (g : Group) : String → List RolesPage → Prop
  | _, [] => False
  | tok, [p] => fetchRolesPage w g tok = some p ∧ p.nextPage = ""
  | tok, p :: q :: rest =>
    fetchRolesPage w g tok = some p ∧ p.nextPage ≠ "" ∧ roleChain w g p.nextPage (q :: rest)

/-- The role a listed role maps to after its `GetRole` re-fetch
(`none` when the item is skipped or would crash). -/
def mappedRole (w : World) (g : Group) (role : GroupRole) : Option GroupRole :=
  match processRole w g role with
  | (.ok o, _) => o
  | (.err _, _) => none
  | (.crash, _) => none

/-- The successfully resolved roles of one page, in item order. -/
def rolesPageMapped (w : World) (g : Group) (p : RolesPage) : List GroupRole :=
  p.roles.filterMap (mappedRole w g)

/-- `processRole` only ever skips, succeeds, or crashes. -/
lemma processRole_shape (w : World) (g : Group) (role : GroupRole) :
    (∃ o log, processRole w g role = (.ok o, log)) ∨
    (∃ log, processRole w g role = (.crash, log)) := by
  simp only [processRole]
  rcases h1 : getRole w g role.id with ⟨r1, log1⟩
  cases r1 with
  | error e1 => exact .inl ⟨none, log1, rfl⟩
  | ok o =>
    cases o with
    | none => exact .inr ⟨log1, rfl⟩
    | some r => exact .inl ⟨some r, log1, rfl⟩

/-- When no item of a roles page crashes, the page processing succeeds
and returns exactly the successfully resolved roles, in order. -/
lemma processRolesList_no_crash (w : World) (g : Group) :
    ∀ roles : List GroupRole,
      (∀ role ∈ roles, (processRole w g role).1 ≠ Outcome.crash) →
      ∃ log, processRolesList w g roles = (.ok (roles.filterMap (mappedRole w g)), log) := by
  intro roles
  induction roles with
  | nil => intro _; exact ⟨[], rfl⟩
  | cons role rest ih =>
    intro h
    rcases ih (fun r hr => h r (List.mem_cons_of_mem _ hr)) with ⟨log2, hrest⟩
    rcases processRole_shape w g role with ⟨o, log1, hpr⟩ | ⟨log1, hpr⟩
    · refine ⟨log1 ++ log2, ?_⟩
      have hmm : mappedRole w g role = o := by simp [mappedRole, hpr]
      simp only [processRolesList, hpr, hrest]
      cases o with
      | none => simp [List.filterMap_cons, hmm]
      | some m => simp [List.filterMap_cons, hmm]
    · exact absurd (by rw [hpr]) (h role (List.mem_cons_self _ _))

/-- Inversion of a successful roles page fetch. -/
lemma fetchRolesPage_inv (w : World) (g : Group) (tok : String) (p : RolesPage)
    (h : fetchRolesPage w g tok = some p) :
    ∃ log body, clientGet w (rolePageURL g) (rolePageQuery tok) = (.ok body, log) ∧
      decodeRolesPage body = .ok p := by
  rcases hc : clientGet w (rolePageURL g) (rolePageQuery tok) with ⟨res, log⟩
  simp only [fetchRolesPage, hc] at h
  cases res with
  | error e => exact Option.noConfusion (show (none : Option RolesPage) = some p from h)
  | ok body =>
    have h2 : (decodeRolesPage body).toOption = some p := h
    cases hd : decodeRolesPage body with
    | error e => rw [hd] at h2; exact Option.noConfusion h2
    | ok q =>
      rw [hd] at h2
      have h3 : q = p := Option.some.inj h2
      subst h3
      exact ⟨log, body, rfl, hd⟩

/-- The `GetRoles` analogue of `getMembersLoop_chain`. -/
lemma getRolesLoop_chain (w : World) (g : Group) :
    ∀ (pages : List RolesPage) (tok : String) (fuel : Nat),
      roleChain w g tok pages →
      (∀ p ∈ pages, ∀ role ∈ p.roles, (processRole w g role).1 ≠ Outcome.crash) →
      pages.length ≤ fuel →
      ∃ log, getRolesLoop w g fuel tok =
        some (.ok ((pages.map (rolesPageMapped w g)).flatten), log, pages.length) := by
  intro pages
  induction pages with
  | nil => intro tok fuel hchain _ _; exact False.elim hchain
  | cons p tail ih =>
    intro tok fuel hchain hnc hlen
    cases fuel with
    | zero => simp at hlen
    | succ f =>
      cases tail with
      | nil =>
        obtain ⟨hfetch, hlast⟩ := hchain
        rcases fetchRolesPage_inv w g tok p hfetch with ⟨log1, body, hc, hd⟩
        rcases processRolesList_no_crash w g p.roles
          (hnc p (List.mem_cons_self _ _)) with ⟨log2, hpm⟩
        refine ⟨log1 ++ log2, ?_⟩
        simp only [getRolesLoop, hc, hd, hpm, hlast, reduceIte]
        simp [rolesPageMapped]
      | cons q rest =>
        obtain ⟨hfetch, hne, hchain2⟩ := hchain
        rcases fetchRolesPage_inv w g tok p hfetch with ⟨log1, body, hc, hd⟩
        rcases processRolesList_no_crash w g p.roles
          (hnc p (List.mem_cons_self _ _)) with ⟨log2, hpm⟩
        have hlen2 : (q :: rest).length ≤ f := by
          simp only [List.length_cons] at hlen ⊢
          omega
        rcases ih p.nextPage f hchain2
          (fun r hr role hrole => hnc r (List.mem_cons_of_mem _ hr) role hrole) hlen2
          with ⟨log3, hrec⟩
        refine ⟨(log1 ++ log2) ++ log3, ?_⟩
        simp only [getRolesLoop, hc, hd, hpm, hne, reduceIte, hrec]
        simp [rolesPageMapped]

/-! ## C3 and C4: concrete pagination worlds -/

/-- The group used by the C3 evaluation. -/
def gC3 : Group := { zeroGroup with id := "3" }

/-- C3 world: one membership page with two items; both accounts
resolve, user 8 holds role 11 in the group, and user 9 has no role in
the group (the legacy `groups/roles` listing for 9 is empty), so the
role resolution for item 9 fails. -/
def wC3 : World := fun r =>
  if r.url == EndpointCloudGroups ++ "3" ++ "/memberships"
  then (200, .obj [("groupMemberships",
    .arr [.obj [("user", .str "users/8")], .obj [("user", .str "users/9")]])])
  else if r.url == EndPointCloudUsers ++ "8"
  then (200, .obj [("id", .num "8"), ("name", .str "eight")])
  else if r.url == EndPointCloudUsers ++ "9"
  then (200, .obj [("id", .num "9"), ("name", .str "nine")])
  else if r.url == EndpointLegacyGroups ++ "/v2/users/8/groups/roles"
  then (200, .obj [("data",
    .arr [.obj [("group", .obj [("id", .num "3")]), ("role", .obj [("id", .num "11")])]])])
  else if r.url == EndpointLegacyGroups ++ "/v2/users/9/groups/roles"
  then (200, .obj [("data", .arr [])])
  else if r.url == EndpointCloudGroups ++ "3" ++ "/roles/" ++ "11"
  then (200, .obj [("id", .num "11"), ("displayName", .str "Member"), ("rank", .num "1")])
  else (404, .null)

/-- The C3 world variant in which the ACCOUNT resolution for user 9
fails instead (the canonical user fetch answers 404). -/
def wC3b : World := fun r =>
  if r.url == EndPointCloudUsers ++ "9" then (404, .null) else wC3 r

/-- C3: evaluation of `GetMembers` on one page of two items.  When the
account resolution of one item fails, the item is skipped and the
other N-1 = 1 mapped items are returned with a nil error, as the claim
states.  But when the account resolves and the ROLE resolution fails,
`role, _ := g.GetUserRole(userID)` leaves a nil pointer that the loop
dereferences: the call aborts by a runtime panic instead of skipping
the item. -/
theorem C3_eval :
    (∃ log, getMembers wC3b gC3 1 =
      some (.ok [⟨"8", "eight", ⟨"11", "Member", "1"⟩⟩], log, 1)) ∧
    (∃ log, getMembers wC3 gC3 1 = some (.crash, log, 1)) :=
  ⟨⟨_, rfl⟩, ⟨_, rfl⟩⟩

/-- The group used by the C4 counterexample. -/
def gC4 : Group := { zeroGroup with id := "4" }

/-- C4 counterexample world: a single membership page (empty cursor)
whose only item has a resolvable account but a failing role
resolution. -/
def wC4x : World := fun r =>
  if r.url == EndpointCloudGroups ++ "4" ++ "/memberships"
  then (200, .obj [("groupMemberships", .arr [.obj [("user", .str "users/9")]])])
  else if r.url == EndPointCloudUsers ++ "9"
  then (200, .obj [("id", .num "9"), ("name", .str "nine")])
  else if r.url == EndpointLegacyGroups ++ "/v2/users/9/groups/roles"
  then (200, .obj [("data", .arr [])])
  else (404, .null)

/-- C4 counterexample: a page sequence in which exactly the last (sole)
page carries the empty cursor, yet `GetMembers` does not return the
concatenation of the successfully mapped items — the role resolution
failure of the single item crashes the whole loop. -/
theorem C4_counterexample :
    memberChain wC4x gC4 "" [⟨"", ["users/9"]⟩] ∧
    (∃ log, getMembers wC4x gC4 1 = some (.crash, log, 1)) :=
  ⟨⟨rfl, rfl⟩, ⟨_, rfl⟩⟩

/-- C4 amended: along any finite page chain in which exactly the last
page carries an empty `nextPageToken`, and in which no item makes the
per-item step crash (for `GetMembers`: no item resolves its account
but fails its role resolution; for `GetRoles`: no listed role decodes
to a null pointer), the two pagination loops terminate within
`pages.length` iterations, issue exactly one page request per page —
none after the empty-cursor page — and return the concatenation of all
pages' successfully mapped items in page order with a nil error. -/
theorem C4_amended :
    (∀ (w : World) (g : Group) (pages : List MemberPage) (fuel : Nat),
        memberChain w g "" pages →
        (∀ p ∈ pages, ∀ raw ∈ p.users, (processMember w g raw).1 ≠ Outcome.crash) →
        pages.length ≤ fuel →
        ∃ log, getMembers w g fuel =
          some (.ok ((pages.map (pageMapped w g)).flatten), log, pages.length)) ∧
    (∀ (w : World) (g : Group) (pages : List RolesPage) (fuel : Nat),
        roleChain w g "" pages →
        (∀ p ∈ pages, ∀ role ∈ p.roles, (processRole w g role).1 ≠ Outcome.crash) →
        pages.length ≤ fuel →
        ∃ log, getRoles w g fuel =
          some (.ok ((pages.map (rolesPageMapped w g)).flatten), log, pages.length)) :=
  ⟨fun w g pages fuel hc hnc hlen => getMembersLoop_chain w g pages "" fuel hc hnc hlen,
    fun w g pages fuel hc hnc hlen => getRolesLoop_chain w g pages "" fuel hc hnc hlen⟩

/-- The group used by the C4 witness. -/
def gC4w : Group := { zeroGroup with id := "5" }

/-- C4 witness world: two membership pages (cursor `tk` between them),
two roles pages (cursor `rt` between them), one member per page, every
secondary lookup succeeding. -/
def wC4w : World := fun r =>
  if r.url == EndpointCloudGroups ++ "5" ++ "/memberships"
  then
    if r.query.any (fun q => q.1 == "pageToken")
    then (200, .obj [("groupMemberships", .arr [.obj [("user", .str "users/8")]])])
    else (200, .obj [("nextPageToken", .str "tk"),
      ("groupMemberships", .arr [.obj [("user", .str "users/7")]])])
  else if r.url == EndPointCloudUsers ++ "7"
  then (200, .obj [("id", .num "7"), ("name", .str "seven")])
  else if r.url == EndPointCloudUsers ++ "8"
  then (200, .obj [("id", .num "8"), ("name", .str "eight")])
  else if r.url == EndpointLegacyGroups ++ "/v2/users/7/groups/roles"
  then (200, .obj [("data",
    .arr [.obj [("group", .obj [("id", .num "5")]), ("role", .obj [("id", .num "21")])]])])
  else if r.url == EndpointLegacyGroups ++ "/v2/users/8/groups/roles"
  then (200, .obj [("data",
    .arr [.obj [("group", .obj [("id", .num "5")]), ("role", .obj [("id", .num "21")])]])])
  else if r.url == EndpointCloudGroups ++ "5" ++ "/roles/" ++ "21"
  then (200, .obj [("id", .num "21"), ("displayName", .str "Member"), ("rank", .num "1")])
  else if r.url == EndpointCloudGroups ++ "5" ++ "/roles"
  then
    if r.query.any (fun q => q.1 == "pageToken")
    then (200, .obj [("groupRoles", .arr [.obj [("id", .num "21")]])])
    else (200, .obj [("nextPageToken", .str "rt"),
      ("groupRoles", .arr [.obj [("id", .num "21")]])])
  else (404, .null)

/-- C4 witness: the amended pagination property at a concrete two-page
member chain and a concrete two-page role chain. -/
theorem C4_witness :
    (∃ log, getMembers wC4w gC4w 2 =
      some (.ok (([⟨"tk", ["users/7"]⟩, ⟨"", ["users/8"]⟩].map (pageMapped wC4w gC4w)).flatten),
        log, 2)) ∧
    (∃ log, getRoles wC4w gC4w 2 =
      some (.ok (([⟨"rt", [⟨"21", "", ""⟩]⟩, ⟨"", [⟨"21", "", ""⟩]⟩].map
        (rolesPageMapped wC4w gC4w)).flatten), log, 2)) :=
  ⟨C4_amended.1 wC4w gC4w [⟨"tk", ["users/7"]⟩, ⟨"", ["users/8"]⟩] 2
      ⟨rfl, by decide, rfl, rfl⟩ (by decide) (by decide),
    C4_amended.2 wC4w gC4w [⟨"rt", [⟨"21", "", ""⟩]⟩, ⟨"", [⟨"21", "", ""⟩]⟩] 2
      ⟨rfl, by decide, rfl, rfl⟩ (by decide) (by decide)⟩

end Robloxgo
